import Mathlib

/-!
Verification development for the PromptBuilder odds retrieval, caching and
normalization engine.  The definitions below are shallow embeddings of the
Python source under `app/core/` (`data_fetcher.py`, `odds_utils.py`,
`prompt_builder.py`, `format_adapters.py`, `models.py`).  Machine floats of
the source are modelled by exact rationals; Python `int()` truncation toward
zero and `round(x, 2)` are modelled explicitly.
-/

namespace PromptBuilder

/-! ## Data model (`models.py`) -/

/-- `SportType` enum from `models.py`. -/
inductive SportType where
  | NFL | NBA | WNBA | MLB | NHL | NCAAF | NCAAB
  | SOCCER | PREMIER_LEAGUE | LA_LIGA | CHAMPIONS_LEAGUE | MLS
  | TENNIS | MMA | UFC | BOXING | GOLF
deriving DecidableEq, Repr, Fintype

/-- `BetType` enum from `models.py`. -/
inductive BetType where
  | MONEYLINE | SPREAD | TOTALS | OVER_UNDER | PARLAY | TEASER | LIVE
  | ALTERNATE_SPREADS | ALTERNATE_TOTALS | ALTERNATE_TEAM_TOTALS
  | H2H_3_WAY | BTTS | DRAW_NO_BET
  | H2H_Q1 | H2H_Q2 | H2H_Q3 | H2H_Q4
  | SPREADS_Q1 | SPREADS_Q2 | SPREADS_Q3 | SPREADS_Q4
  | TOTALS_Q1 | TOTALS_Q2 | TOTALS_Q3 | TOTALS_Q4
  | H2H_H1 | H2H_H2 | SPREADS_H1 | SPREADS_H2 | TOTALS_H1 | TOTALS_H2
  | H2H_P1 | H2H_P2 | H2H_P3
  | H2H_1ST_1_INNINGS | H2H_1ST_3_INNINGS | H2H_1ST_5_INNINGS | H2H_1ST_7_INNINGS
  | PLAYER_PASS_YDS | PLAYER_PASS_TDS | PLAYER_RUSH_YDS | PLAYER_RUSH_TDS
  | PLAYER_RECEPTIONS | PLAYER_RECEPTION_YDS | PLAYER_ANYTIME_TD
  | PLAYER_POINTS | PLAYER_REBOUNDS | PLAYER_ASSISTS | PLAYER_THREES
  | PLAYER_BLOCKS | PLAYER_STEALS | PLAYER_DOUBLE_DOUBLE | PLAYER_TRIPLE_DOUBLE
  | BATTER_HOME_RUNS | BATTER_HITS | BATTER_TOTAL_BASES | BATTER_RBIS
  | PITCHER_STRIKEOUTS | PITCHER_HITS_ALLOWED | PITCHER_EARNED_RUNS
  | PLAYER_GOALS | PLAYER_GOAL_SCORER_ANYTIME | PLAYER_SHOTS_ON_GOAL
deriving DecidableEq, Repr

/-- `DataSource` enum from `models.py`. -/
inductive DataSource where
  | ODDS_API | ESPN_API | WEB_SCRAPING | MANUAL_ENTRY
deriving DecidableEq, Repr

/-- `APIResponse` wrapper from `models.py` (the `data` payload is kept
opaque as a string, the `timestamp` field is carried separately where it
matters). -/
structure APIResponse where
  success : Bool
  data : Option String := none
  error : Option String := none
  source : Option DataSource := none
deriving DecidableEq, Repr

/-! ## Python-style string and parsing helpers

Core `String` functions such as `String.trim` and `String.replace` are
implemented by well-founded recursion and do not reduce inside the kernel,
so the embedding carries its own structural versions over `List Char`.
`pyInt?` models Python `int(s)` (strip, optional single sign, digits);
`pyFloat?` models the fragment of `float(s)` reachable from odds strings
(optional sign, digits with at most one decimal point). -/

/-- The ASCII whitespace stripped by Python `str.strip()`. -/
def pyWhitespace (c : Char) : Bool :=
  c = ' ' || c = '\t' || c = '\n' || c = '\r' || c = '\x0b' || c = '\x0c'

/-- `str.strip()` on the character list. -/
def trimChars (l : List Char) : List Char :=
  ((l.dropWhile pyWhitespace).reverse.dropWhile pyWhitespace).reverse

/-- ASCII upper-casing of one character (`str.upper()` on the odds
strings, which are ASCII). -/
def upChar (c : Char) : Char :=
  if 'a' ≤ c ∧ c ≤ 'z' then Char.ofNat (c.toNat - 32) else c

/-- Split on a one-character separator, like `str.split(sep)` /
`String.splitOn` for a single-character pattern. -/
def splitOnChar (sep : Char) : List Char → List (List Char)
  | [] => [[]]
  | c :: cs =>
    match splitOnChar sep cs with
    | [] => if c = sep then [[], []] else [[c]]
    | h :: t => if c = sep then [] :: h :: t else (c :: h) :: t

def pyIntDigits? (cs : List Char) : Option Nat :=
  if cs = [] then none
  else if cs.all Char.isDigit then
    some (cs.foldl (fun a c => a * 10 + (c.toNat - 48)) 0)
  else none

def pyInt? (s : String) : Option Int :=
  match trimChars s.data with
  | '-' :: rest => (pyIntDigits? rest).map (fun n => -(n : Int))
  | '+' :: rest => (pyIntDigits? rest).map (fun n => (n : Int))
  | cs => (pyIntDigits? cs).map (fun n => (n : Int))

def pyDigitsVal (cs : List Char) : Nat :=
  cs.foldl (fun a c => a * 10 + (c.toNat - 48)) 0

/-- Unsigned decimal literal: `"12"`, `"12.5"`, `"12."`, `".5"`. -/
def pyUnsignedFloat? (cs : List Char) : Option ℚ :=
  match splitOnChar '.' cs with
  | [a] =>
    if a ≠ [] ∧ a.all Char.isDigit then some ((pyDigitsVal a : ℚ))
    else none
  | [a, b] =>
    if (a ≠ [] ∨ b ≠ []) ∧ a.all Char.isDigit ∧ b.all Char.isDigit then
      some ((pyDigitsVal a : ℚ) + (pyDigitsVal b : ℚ) / (10 : ℚ) ^ b.length)
    else none
  | _ => none

def pyFloat? (s : String) : Option ℚ :=
  match trimChars s.data with
  | '-' :: rest => (pyUnsignedFloat? rest).map (fun q => -q)
  | '+' :: rest => pyUnsignedFloat? rest
  | cs => pyUnsignedFloat? cs

/-- Python `int()` applied to a float value: truncation toward zero. -/
def truncQ (q : ℚ) : Int := if 0 ≤ q then ⌊q⌋ else ⌈q⌉

/-- Python `round(x, 2)` on the modelled exact rationals. -/
def round2 (q : ℚ) : ℚ := ((round (q * 100) : ℤ) : ℚ) / 100

/-! ## OddsMath (`odds_utils.py`) -/

/-- `calculate_odds_value` from `odds_utils.py`: strip + upper-case,
map `"EVEN"`/`"EV"` to 100, drop `'+'` characters, parse as float;
any parse failure yields 0. -/
def calculate_odds_value (odds : String) : ℚ :=
  let os := (trimChars odds.data).map upChar
  if os = "EVEN".data ∨ os = "EV".data then 100
  else
    match pyFloat? (String.mk (os.filter (fun c => c ≠ '+'))) with
    | some v => v
    | none => 0

/-- `calculate_implied_probability` from `odds_utils.py`. -/
def calculate_implied_probability (odds : String) : Option ℚ :=
  if 0 ≤ calculate_odds_value odds then
    some (round2 (100 / (calculate_odds_value odds + 100) * 100))
  else
    some (round2 (|calculate_odds_value odds| / (|calculate_odds_value odds| + 100) * 100))

/-! ## Parlay combination (`prompt_builder.py`, `calculate_parlay_odds`) -/

/-- One leg of `calculate_parlay_odds`: `odd_str.strip().replace("+", "")`
followed by `int(...)`. -/
def parseLeg (s : String) : Option Int :=
  pyInt? (String.mk ((trimChars s.data).filter (fun c => c ≠ '+')))

/-- American-to-decimal conversion inside the `try` block.  A parsed value
of 0 reaches `100 / abs(0)`, raising `ZeroDivisionError`, which the bare
`except` catches: that leg is skipped, hence `none`.

This is the exact-rational idealization of the source's float arithmetic
(adequate for the formula/rounding-mode questions of C4, whose inputs stay
far from rounding boundaries); `floatLegDecimal` below additionally models
the IEEE-754 rounding of the two float operations, which matters for the
division-safety question of C10. -/
def americanToDecimal (odd : Int) : Option ℚ :=
  if 0 < odd then some (1 + (odd : ℚ) / 100)
  else if odd = 0 then none
  else some (1 + 100 / ((odd.natAbs : ℚ)))

/-- The decimal odds retained by `calculate_parlay_odds` after parsing. -/
def parlayDecimals (selections : List String) : List ℚ :=
  selections.filterMap (fun s => (parseLeg s).bind americanToDecimal)

/-- `calculate_parlay_odds` from `prompt_builder.py`. -/
def calculate_parlay_odds (selections : List String) : String :=
  if selections = [] then "+100"
  else if parlayDecimals selections = [] then "+100"
  else if 2 ≤ (parlayDecimals selections).foldl (fun a b => a * b) 1 then
    "+" ++ toString (truncQ (((parlayDecimals selections).foldl (fun a b => a * b) 1 - 1) * 100))
  else
    toString (truncQ (-100 / ((parlayDecimals selections).foldl (fun a b => a * b) 1 - 1)))

/-! ## Spec-side parlay definitions (for refinement comparison)

`combineParlaySpecRound` follows the specification text literally:
decimal odds `1 + v/100` for non-negative `v`, `1 + 100/|v|` for negative
`v`, and conversion back to American format using `round`. -/

def specLegDecimal (v : Int) : ℚ :=
  if 0 ≤ v then 1 + (v : ℚ) / 100 else 1 + 100 / ((v.natAbs : ℚ))

/-- The decimal odds the specification's wording retains. -/
def specParlayDecimals (selections : List String) : List ℚ :=
  selections.filterMap (fun s => (parseLeg s).map specLegDecimal)

def combineParlaySpecRound (selections : List String) : String :=
  if specParlayDecimals selections = [] then "+100"
  else if 2 ≤ (specParlayDecimals selections).foldl (fun a b => a * b) 1 then
    "+" ++ toString (round (((specParlayDecimals selections).foldl (fun a b => a * b) 1 - 1) * 100) : ℤ)
  else
    toString (round (-100 / ((specParlayDecimals selections).foldl (fun a b => a * b) 1 - 1)) : ℤ)

/-- Amended-claim leg conversion: a leg parsing to 0 is skipped (its
conversion raises a caught `ZeroDivisionError`). -/
def amendedLegDecimal (v : Int) : Option ℚ :=
  if v = 0 then none
  else if 0 ≤ v then some (1 + (v : ℚ) / 100)
  else some (1 + 100 / ((v.natAbs : ℚ)))

/-- The decimal odds the amended claim retains. -/
def amendedParlayDecimals (selections : List String) : List ℚ :=
  selections.filterMap (fun s => (parseLeg s).bind amendedLegDecimal)

/-- Amended-claim combination: multiply retained decimal odds, convert back
with Python `int()` truncation toward zero. -/
def combineParlayAmended (selections : List String) : String :=
  if amendedParlayDecimals selections = [] then "+100"
  else if 2 ≤ (amendedParlayDecimals selections).foldl (fun a b => a * b) 1 then
    "+" ++ toString (truncQ (((amendedParlayDecimals selections).foldl (fun a b => a * b) 1 - 1) * 100))
  else
    toString (truncQ (-100 / ((amendedParlayDecimals selections).foldl (fun a b => a * b) 1 - 1)))

/-! ## MarketCatalog (`data_fetcher.py`, `_is_market_valid_for_sport`)

Sport categories and market sets exactly as in the source. -/

def football_sports : List SportType := [.NFL, .NCAAF]

def basketball_sports : List SportType := [.NBA, .WNBA, .NCAAB]

def baseball_sports : List SportType := [.MLB]

def hockey_sports : List SportType := [.NHL]

def soccer_sports : List SportType :=
  [.SOCCER, .PREMIER_LEAGUE, .LA_LIGA, .CHAMPIONS_LEAGUE, .MLS]

def basic_markets : List String := ["h2h", "spreads", "totals"]

def alternate_markets : List String :=
  ["alternate_spreads", "alternate_totals", "alternate_team_totals"]

def soccer_markets : List String := ["h2h_3_way", "btts", "draw_no_bet"]

def football_props : List String :=
  ["player_pass_yds", "player_pass_tds", "player_rush_yds", "player_rush_tds",
   "player_receptions", "player_reception_yds", "player_anytime_td"]

def basketball_props : List String :=
  ["player_points", "player_rebounds", "player_assists", "player_threes",
   "player_blocks", "player_steals", "player_double_double", "player_triple_double"]

def baseball_props : List String :=
  ["batter_home_runs", "batter_hits", "batter_total_bases", "batter_rbis",
   "pitcher_strikeouts", "pitcher_hits_allowed", "pitcher_earned_runs"]

def hockey_props : List String :=
  ["player_goals", "player_anytime_goal_scorer", "player_shots_on_goal"]

/-- `str.startswith(p)` on the character lists. -/
def startsWithChars (p s : String) : Bool := p.data.isPrefixOf s.data

/-- Contiguous-subsequence test on character lists (`pat in s`). -/
def containsSeq (p : List Char) : List Char → Bool
  | [] => p.isEmpty
  | c :: cs => p.isPrefixOf (c :: cs) || containsSeq p cs

/-- Python `pat in s` substring containment. -/
def strContains (s pat : String) : Bool := containsSeq pat.data s.data

/-- `market.startswith(("h2h_q", "spreads_q", "totals_q"))`. -/
def quarterPrefix (m : String) : Bool :=
  startsWithChars "h2h_q" m || startsWithChars "spreads_q" m || startsWithChars "totals_q" m

/-- `market.startswith(("h2h_h", "spreads_h", "totals_h"))`. -/
def halfPrefix (m : String) : Bool :=
  startsWithChars "h2h_h" m || startsWithChars "spreads_h" m || startsWithChars "totals_h" m

/-- `market.startswith("h2h_p") or market in {"h2h_p1", "h2h_p2", "h2h_p3"}`. -/
def periodCond (m : String) : Bool :=
  startsWithChars "h2h_p" m || decide (m ∈ (["h2h_p1", "h2h_p2", "h2h_p3"] : List String))

/-- `OddsAPIClient._is_market_valid_for_sport` from `data_fetcher.py`,
with the source's branches in the source's order. -/
def is_market_valid_for_sport (market : String) (sport : SportType) : Bool :=
  if market ∈ basic_markets then true
  else if market ∈ alternate_markets then true
  else if market ∈ soccer_markets then decide (sport ∈ soccer_sports)
  else if quarterPrefix market then
    decide (sport ∈ football_sports ∨ sport ∈ basketball_sports)
  else if halfPrefix market then !decide (sport ∈ soccer_sports)
  else if periodCond market then decide (sport ∈ hockey_sports)
  else if strContains market "innings" then decide (sport ∈ baseball_sports)
  else if market ∈ football_props then decide (sport ∈ football_sports)
  else if market ∈ basketball_props then decide (sport ∈ basketball_sports)
  else if market ∈ baseball_props then decide (sport ∈ baseball_sports)
  else if market ∈ hockey_props then decide (sport ∈ hockey_sports)
  else true

/-! ## Bet-type to market mapping (`models.py`, `data_fetcher.py`) -/

/-- `BET_TYPE_TO_API_MARKET` from `models.py`; the client-side-only types
(`PARLAY`, `TEASER`, `LIVE`, `OVER_UNDER`) have no entry in the dict. -/
def BET_TYPE_TO_API_MARKET : BetType → Option String
  | .MONEYLINE => some "h2h"
  | .SPREAD => some "spreads"
  | .TOTALS => some "totals"
  | .OVER_UNDER => none
  | .PARLAY => none
  | .TEASER => none
  | .LIVE => none
  | .ALTERNATE_SPREADS => some "alternate_spreads"
  | .ALTERNATE_TOTALS => some "alternate_totals"
  | .ALTERNATE_TEAM_TOTALS => some "alternate_team_totals"
  | .H2H_3_WAY => some "h2h_3_way"
  | .BTTS => some "btts"
  | .DRAW_NO_BET => some "draw_no_bet"
  | .H2H_Q1 => some "h2h_q1"
  | .H2H_Q2 => some "h2h_q2"
  | .H2H_Q3 => some "h2h_q3"
  | .H2H_Q4 => some "h2h_q4"
  | .SPREADS_Q1 => some "spreads_q1"
  | .SPREADS_Q2 => some "spreads_q2"
  | .SPREADS_Q3 => some "spreads_q3"
  | .SPREADS_Q4 => some "spreads_q4"
  | .TOTALS_Q1 => some "totals_q1"
  | .TOTALS_Q2 => some "totals_q2"
  | .TOTALS_Q3 => some "totals_q3"
  | .TOTALS_Q4 => some "totals_q4"
  | .H2H_H1 => some "h2h_h1"
  | .H2H_H2 => some "h2h_h2"
  | .SPREADS_H1 => some "spreads_h1"
  | .SPREADS_H2 => some "spreads_h2"
  | .TOTALS_H1 => some "totals_h1"
  | .TOTALS_H2 => some "totals_h2"
  | .H2H_P1 => some "h2h_p1"
  | .H2H_P2 => some "h2h_p2"
  | .H2H_P3 => some "h2h_p3"
  | .H2H_1ST_1_INNINGS => some "h2h_1st_1_innings"
  | .H2H_1ST_3_INNINGS => some "h2h_1st_3_innings"
  | .H2H_1ST_5_INNINGS => some "h2h_1st_5_innings"
  | .H2H_1ST_7_INNINGS => some "h2h_1st_7_innings"
  | .PLAYER_PASS_YDS => some "player_pass_yds"
  | .PLAYER_PASS_TDS => some "player_pass_tds"
  | .PLAYER_RUSH_YDS => some "player_rush_yds"
  | .PLAYER_RUSH_TDS => some "player_rush_tds"
  | .PLAYER_RECEPTIONS => some "player_receptions"
  | .PLAYER_RECEPTION_YDS => some "player_reception_yds"
  | .PLAYER_ANYTIME_TD => some "player_anytime_td"
  | .PLAYER_POINTS => some "player_points"
  | .PLAYER_REBOUNDS => some "player_rebounds"
  | .PLAYER_ASSISTS => some "player_assists"
  | .PLAYER_THREES => some "player_threes"
  | .PLAYER_BLOCKS => some "player_blocks"
  | .PLAYER_STEALS => some "player_steals"
  | .PLAYER_DOUBLE_DOUBLE => some "player_double_double"
  | .PLAYER_TRIPLE_DOUBLE => some "player_triple_double"
  | .BATTER_HOME_RUNS => some "batter_home_runs"
  | .BATTER_HITS => some "batter_hits"
  | .BATTER_TOTAL_BASES => some "batter_total_bases"
  | .BATTER_RBIS => some "batter_rbis"
  | .PITCHER_STRIKEOUTS => some "pitcher_strikeouts"
  | .PITCHER_HITS_ALLOWED => some "pitcher_hits_allowed"
  | .PITCHER_EARNED_RUNS => some "pitcher_earned_runs"
  | .PLAYER_GOALS => some "player_goals"
  | .PLAYER_GOAL_SCORER_ANYTIME => some "player_anytime_goal_scorer"
  | .PLAYER_SHOTS_ON_GOAL => some "player_shots_on_goal"

/-- `client_side_types` from `bet_types_to_markets`. -/
def client_side_types : List BetType := [.PARLAY, .TEASER, .LIVE, .OVER_UNDER]

/-- The `for bet_type in bet_types` loop of `bet_types_to_markets`,
threading the accumulated `markets` list. -/
def marketsLoop (sport : Option SportType) : List BetType → List String → List String
  | [], acc => acc
  | bt :: rest, acc =>
    if bt ∈ client_side_types then marketsLoop sport rest acc
    else
      match BET_TYPE_TO_API_MARKET bt with
      | none => marketsLoop sport rest acc
      | some m =>
        if m ∈ acc then marketsLoop sport rest acc
        else
          match sport with
          | some sp =>
            if is_market_valid_for_sport m sp then marketsLoop sport rest (acc ++ [m])
            else marketsLoop sport rest acc
          | none => marketsLoop sport rest (acc ++ [m])

/-- `",".join(markets)`. -/
def joinComma : List String → String
  | [] => ""
  | h :: t => t.foldl (fun acc m => acc ++ "," ++ m) h

/-- `OddsAPIClient.bet_types_to_markets` from `data_fetcher.py`. -/
def bet_types_to_markets (bet_types : List BetType) (sport : Option SportType) : String :=
  if marketsLoop sport bet_types [] = [] then "h2h,spreads,totals"
  else joinComma (marketsLoop sport bet_types [])

/-! Spec-side description: filter out client-side bet types, map to
provider keys, deduplicate preserving first-seen order, restrict to keys
valid for the sport, default when empty. -/

def dedupFirstSeenAux : List String → List String → List String
  | [], seen => seen
  | m :: rest, seen =>
    if m ∈ seen then dedupFirstSeenAux rest seen
    else dedupFirstSeenAux rest (seen ++ [m])

def dedupFirstSeen (l : List String) : List String := dedupFirstSeenAux l []

def specMarketsForBetTypes (bet_types : List BetType) (sp : SportType) : String :=
  if ((dedupFirstSeen ((bet_types.filter
        (fun bt => decide (bt ∉ client_side_types))).filterMap
          BET_TYPE_TO_API_MARKET)).filter
            (fun m => is_market_valid_for_sport m sp)) = [] then "h2h,spreads,totals"
  else joinComma ((dedupFirstSeen ((bet_types.filter
        (fun bt => decide (bt ∉ client_side_types))).filterMap
          BET_TYPE_TO_API_MARKET)).filter
            (fun m => is_market_valid_for_sport m sp))

/-! ## RequestGateway: `OddsAPIClient._make_request` (`data_fetcher.py`)

The network is an oracle mapping the attempt index to the outcome of that
physical call.  `otherError` is any exception that is neither an
`HTTPError` nor a `Timeout` (the bare `except Exception` branch, which
breaks out of the loop).  Sleeps record the `time.sleep(2 ** attempt)`
backoff waits, in seconds. -/

inductive CallOutcome where
  | success (data : String)
  | httpError (status : Nat)
  | timeout
  | otherError
deriving DecidableEq, Repr

structure RequestResult where
  response : APIResponse
  calls : Nat
  sleeps : List Nat
deriving DecidableEq, Repr

def successResponse (d : String) : APIResponse :=
  ⟨true, some d, none, some .ODDS_API⟩

def invalidKeyResponse : APIResponse :=
  ⟨false, none, some "Invalid API key", some .ODDS_API⟩

def noKeyResponse : APIResponse :=
  ⟨false, none, some "API key not configured. Please add ODDS_API_KEY to .env file",
   some .ODDS_API⟩

def failedResponse (n : Nat) : APIResponse :=
  ⟨false, none, some ("Failed after " ++ toString n ++ " attempts"), some .ODDS_API⟩

/-- `for attempt in range(self.max_retries)` with the source's handlers:
429 sleeps `2 ** attempt` and retries, 401 returns immediately, any other
HTTP status logs and retries, timeout retries, any other exception breaks.
Falling off the loop returns the generic failure. -/
def attemptLoop (net : Nat → CallOutcome) (maxRetries : Nat) :
    Nat → Nat → Nat → List Nat → RequestResult
  | 0, _, calls, sleeps => ⟨failedResponse maxRetries, calls, sleeps⟩
  | remaining + 1, attempt, calls, sleeps =>
    match net attempt with
    | .success d => ⟨successResponse d, calls + 1, sleeps⟩
    | .httpError status =>
      if status = 429 then
        attemptLoop net maxRetries remaining (attempt + 1) (calls + 1) (sleeps ++ [2 ^ attempt])
      else if status = 401 then ⟨invalidKeyResponse, calls + 1, sleeps⟩
      else attemptLoop net maxRetries remaining (attempt + 1) (calls + 1) sleeps
    | .timeout => attemptLoop net maxRetries remaining (attempt + 1) (calls + 1) sleeps
    | .otherError => ⟨failedResponse maxRetries, calls + 1, sleeps⟩

/-- `OddsAPIClient._make_request`: missing key fails before any physical
call; otherwise the retry loop runs with `maxRetries` attempts. -/
def make_request (hasKey : Bool) (net : Nat → CallOutcome) (maxRetries : Nat) :
    RequestResult :=
  if hasKey then attemptLoop net maxRetries maxRetries 0 0 []
  else ⟨noKeyResponse, 0, []⟩

/-! ## RequestGateway: `OddsAPIClient.get_odds` cache (`data_fetcher.py`)

Time is in seconds; the TTL is `timedelta(minutes=15)`.  The cache is the
`{cache_key: (response, timestamp)}` dict, as an association list in
insertion order.  `fetch` is the response the network would produce for
the single `_make_request` call this invocation may perform; the third
component of the result counts those fetches (0 or 1). -/

def SPORT_KEYS : SportType → Option String
  | .NFL => some "americanfootball_nfl"
  | .NBA => some "basketball_nba"
  | .WNBA => some "basketball_wnba"
  | .MLB => some "baseball_mlb"
  | .NHL => some "icehockey_nhl"
  | .NCAAF => some "americanfootball_ncaaf"
  | .NCAAB => some "basketball_ncaab"
  | .SOCCER => some "soccer_epl"
  | .PREMIER_LEAGUE => some "soccer_epl"
  | .LA_LIGA => some "soccer_spain_la_liga"
  | .CHAMPIONS_LEAGUE => some "soccer_uefa_champs_league"
  | .MLS => some "soccer_usa_mls"
  | .MMA => some "mma_mixed_martial_arts"
  | .UFC => some "mma_mixed_martial_arts"
  | .TENNIS => none
  | .BOXING => none
  | .GOLF => none

def CACHE_DURATION_SECONDS : Nat := 15 * 60

structure Gateway where
  cache : List (String × APIResponse × Nat)
deriving DecidableEq, Repr

def cacheKeyOf (sk regions markets oddsFormat : String) : String :=
  sk ++ ":" ++ regions ++ ":" ++ markets ++ ":" ++ oddsFormat

def cacheLookup (c : List (String × APIResponse × Nat)) (k : String) :
    Option (APIResponse × Nat) :=
  (c.find? (fun e => e.1 == k)).map (fun e => e.2)

/-- `del self._cache[cache_key]`. -/
def cacheErase (c : List (String × APIResponse × Nat)) (k : String) :
    List (String × APIResponse × Nat) :=
  c.filter (fun e => !(e.1 == k))

/-- `self._cache[cache_key] = (response, datetime.now())`; on every path
that stores, the key is absent (never present, or just deleted), so the
erase-and-append form agrees with dict assignment. -/
def cacheInsert (c : List (String × APIResponse × Nat)) (k : String)
    (v : APIResponse) (t : Nat) : List (String × APIResponse × Nat) :=
  cacheErase c k ++ [(k, v, t)]

/-- `OddsAPIClient.get_odds`: sport-key lookup, cache consultation with
lazy eviction, fetch, and conditional caching of successes only. -/
def get_odds (g : Gateway) (now : Nat) (fetch : APIResponse) (sport : SportType)
    (regions markets oddsFormat : String) : APIResponse × Gateway × Nat :=
  match SPORT_KEYS sport with
  | none => (⟨false, none, some "Sport not supported", some .ODDS_API⟩, g, 0)
  | some sk =>
    match cacheLookup g.cache (cacheKeyOf sk regions markets oddsFormat) with
    | some (resp, t) =>
      if now - t < CACHE_DURATION_SECONDS then (resp, g, 0)
      else if fetch.success then
        (fetch, ⟨cacheInsert g.cache (cacheKeyOf sk regions markets oddsFormat) fetch now⟩, 1)
      else
        (fetch, ⟨cacheErase g.cache (cacheKeyOf sk regions markets oddsFormat)⟩, 1)
    | none =>
      if fetch.success then
        (fetch, ⟨cacheInsert g.cache (cacheKeyOf sk regions markets oddsFormat) fetch now⟩, 1)
      else (fetch, g, 1)

/-! ## IEEE-754 double model for the parlay float path

`prompt_builder.py` computes the leg decimals and their product in Python
floats (IEEE-754 binary64, round to nearest, ties to even).  `roundDouble`
models that rounding for the normal, non-overflowing range, which contains
every value arising below: the significand of a positive `q` at exponent
`e = Int.log 2 q` is `q / 2^(e-52) ∈ [2^52, 2^53)`, rounded half-to-even
to an integer and scaled back.  Python's `int / int` true division and the
float `+`, `-`, `*` are all correctly rounded, hence one `roundDouble`
per operation. -/

/-- Round a positive significand to an integer, ties to even. -/
def roundHalfEven (m : ℚ) : ℤ :=
  if m - ⌊m⌋ < 1/2 then ⌊m⌋
  else if 1/2 < m - ⌊m⌋ then ⌊m⌋ + 1
  else if 2 ∣ ⌊m⌋ then ⌊m⌋ else ⌊m⌋ + 1

def roundDoublePos (q : ℚ) : ℚ :=
  ((roundHalfEven (q / (2 : ℚ) ^ (Int.log 2 q - 52)) : ℚ)) * (2 : ℚ) ^ (Int.log 2 q - 52)

def roundDouble (q : ℚ) : ℚ :=
  if q = 0 then 0
  else if q < 0 then -roundDoublePos (-q)
  else roundDoublePos q

def fadd (a b : ℚ) : ℚ := roundDouble (a + b)

def fsub (a b : ℚ) : ℚ := roundDouble (a - b)

def fmul (a b : ℚ) : ℚ := roundDouble (a * b)

/-- Float division; dividing by `0.0` raises `ZeroDivisionError`. -/
def fdiv? (a b : ℚ) : Option ℚ :=
  if b = 0 then none else some (roundDouble (a / b))

/-- The leg conversion of `calculate_parlay_odds` with the source's float
arithmetic: `odd / 100` and `100 / abs(odd)` are correctly rounded
`int / int` true divisions, and the `1 + _` is a rounded float addition.
A parsed value of 0 raises the caught `ZeroDivisionError` and the leg is
skipped. -/
def floatLegDecimal (odd : Int) : Option ℚ :=
  if 0 < odd then some (fadd 1 (roundDouble ((odd : ℚ) / 100)))
  else if odd = 0 then none
  else some (fadd 1 (roundDouble (100 / ((odd.natAbs : ℚ)))))

def floatParlayDecimals (selections : List String) : List ℚ :=
  selections.filterMap (fun s => (parseLeg s).bind floatLegDecimal)

/-- `calculate_parlay_odds` with float arithmetic; `none` models the
uncaught `ZeroDivisionError` from `-100 / (combined_decimal - 1)` when the
combined decimal odds equal exactly `1.0` (the division sits outside any
`try`). -/
def calculate_parlay_odds_float (selections : List String) : Option String :=
  if selections = [] then some "+100"
  else if floatParlayDecimals selections = [] then some "+100"
  else if 2 ≤ (floatParlayDecimals selections).foldl fmul 1 then
    some ("+" ++ toString (truncQ
      (fmul (fsub ((floatParlayDecimals selections).foldl fmul 1) 1) 100)))
  else
    match fdiv? (-100) (fsub ((floatParlayDecimals selections).foldl fmul 1) 1) with
    | none => none
    | some q => some (toString (truncQ q))

/-! ## AdapterFactory (`format_adapters.py`)

`_adapters` maps source-type strings to adapter classes; `get_adapter`
lowers the string, falls back to `CustomAPIAdapter` for unknown keys, and
calls the class.  Calling a constructor with a wrong argument list raises
`TypeError` in Python, modelled as `Except.error`:
`CustomAPIAdapter.__init__(self, mapping_config)` has a required
parameter, the other adapters take no constructor arguments. -/

inductive AdapterTag where
  | odds_api | espn_api | web_scraping | custom
deriving DecidableEq, Repr

inductive DataAdapter where
  | oddsAPIAdapter
  | espnAPIAdapter
  | webScrapedDataAdapter
  | customAPIAdapter (mapping : List (String × String))
deriving DecidableEq, Repr

/-- ASCII lower-casing of one character (`str.lower()`). -/
def downChar (c : Char) : Char :=
  if 'A' ≤ c ∧ c ≤ 'Z' then Char.ofNat (c.toNat + 32) else c

def strToLower (s : String) : String := String.mk (s.data.map downChar)

/-- `AdapterFactory._adapters.get(source_type.lower())`. -/
def adapterRegistryLookup (s : String) : Option AdapterTag :=
  if s = "odds_api" then some .odds_api
  else if s = "espn_api" then some .espn_api
  else if s = "web_scraping" then some .web_scraping
  else if s = "custom" then some .custom
  else none

/-- `adapter_class(**kwargs) if kwargs else adapter_class()`:
`CustomAPIAdapter` requires `mapping_config`, so calling it with no
arguments raises `TypeError`; the other classes take no arguments. -/
def constructAdapter : AdapterTag → Option (List (String × String)) → Except String DataAdapter
  | .custom, some kw => .ok (.customAPIAdapter kw)
  | .custom, none =>
    .error "TypeError: CustomAPIAdapter.__init__ missing required argument: mapping_config"
  | .odds_api, none => .ok .oddsAPIAdapter
  | .espn_api, none => .ok .espnAPIAdapter
  | .web_scraping, none => .ok .webScrapedDataAdapter
  | _, some _ => .error "TypeError: unexpected keyword argument"

/-- `AdapterFactory.get_adapter` from `format_adapters.py`. -/
def get_adapter (source_type : String) (kwargs : Option (List (String × String))) :
    Except String DataAdapter :=
  match adapterRegistryLookup (strToLower source_type) with
  | some tag => constructAdapter tag kwargs
  | none => constructAdapter .custom kwargs

/-! ## SecondaryStatsAdapter win-loss parsing (`format_adapters.py`,
`ESPNAPIAdapter._parse_team_stats`)

`summary.split("-")` splits on every hyphen; `wins = int(parts[0])` and
`losses = int(parts[1])` run sequentially inside one `try`, so a failure
on `parts[0]` leaves both unset while a failure on `parts[1]` leaves the
already-assigned wins. -/

def parseRecordSummary (summary : String) : Option Int × Option Int :=
  if 2 ≤ ((splitOnChar '-' summary.data).map String.mk).length then
    match pyInt? (((splitOnChar '-' summary.data).map String.mk).getD 0 "") with
    | none => (none, none)
    | some w => (some w, pyInt? (((splitOnChar '-' summary.data).map String.mk).getD 1 ""))
  else (none, none)

def joinHyphen : List (List Char) → List Char
  | [] => []
  | [x] => x
  | x :: xs => x ++ '-' :: joinHyphen xs

/-- The claim's reading: split on the FIRST hyphen only, the remainder
(hyphens included) being the losses field. -/
def parseRecordSummaryFirstHyphen (summary : String) : Option Int × Option Int :=
  match splitOnChar '-' summary.data with
  | p0 :: p1 :: rest =>
    match pyInt? (String.mk p0) with
    | none => (none, none)
    | some w => (some w, pyInt? (String.mk (joinHyphen (p1 :: rest))))
  | _ => (none, none)

/-- Amended-claim parsing: split on every hyphen, wins from the first
part, losses from the second. -/
def parseWLAmendedSpec (summary : String) : Option Int × Option Int :=
  match (splitOnChar '-' summary.data).map String.mk with
  | p0 :: p1 :: _ =>
    match pyInt? p0, pyInt? p1 with
    | some w, some l => (some w, some l)
    | some w, none => (some w, none)
    | none, _ => (none, none)
  | _ => (none, none)

/-! ## Helper lemmas about parlay combination -/

lemma americanToDecimal_eq_amended (v : Int) :
    americanToDecimal v = amendedLegDecimal v := by
  unfold americanToDecimal amendedLegDecimal
  split_ifs <;> first | rfl | omega

lemma parlayDecimals_eq_amended (selections : List String) :
    parlayDecimals selections = amendedParlayDecimals selections := by
  unfold parlayDecimals amendedParlayDecimals
  congr 1
  funext s
  cases parseLeg s <;> simp [americanToDecimal_eq_amended]

lemma truncQ_eq_of {q : ℚ} {n : ℤ} (h0 : 0 ≤ q) (h1 : (n : ℚ) ≤ q)
    (h2 : q < (n : ℚ) + 1) : truncQ q = n := by
  unfold truncQ
  rw [if_pos h0]
  exact Int.floor_eq_iff.mpr ⟨h1, by linarith⟩

lemma round_eq_of {q : ℚ} {n : ℤ} (h1 : (n : ℚ) - 1/2 ≤ q)
    (h2 : q < (n : ℚ) + 1/2) : round q = n := by
  rw [round_eq]
  exact Int.floor_eq_iff.mpr ⟨by linarith, by linarith⟩

/-- Evaluation helper for `calculate_parlay_odds` in the `d ≥ 2` branch. -/
lemma calculate_parlay_odds_eval_hi {l : List String} {d : ℚ} {n : ℤ}
    (hsel : l ≠ []) (hne : parlayDecimals l ≠ [])
    (hfold : (parlayDecimals l).foldl (fun a b => a * b) 1 = d)
    (h2 : 2 ≤ d) (htr : truncQ ((d - 1) * 100) = n) :
    calculate_parlay_odds l = "+" ++ toString n := by
  unfold calculate_parlay_odds
  rw [if_neg hsel, if_neg hne, hfold, if_pos h2, htr]

/-- Evaluation helper for `combineParlaySpecRound` in the `d ≥ 2` branch. -/
lemma combineParlaySpecRound_eval_hi {l : List String} {d : ℚ} {n : ℤ}
    (hne : specParlayDecimals l ≠ [])
    (hfold : (specParlayDecimals l).foldl (fun a b => a * b) 1 = d)
    (h2 : 2 ≤ d) (hrd : (round ((d - 1) * 100) : ℤ) = n) :
    combineParlaySpecRound l = "+" ++ toString n := by
  unfold combineParlaySpecRound
  rw [if_neg hne, hfold, if_pos h2, hrd]

lemma marketsLoop_dedup (sp : SportType) (bts : List BetType) :
    ∀ seen : List String,
      marketsLoop (some sp) bts (seen.filter (fun m => is_market_valid_for_sport m sp))
        = (dedupFirstSeenAux ((bts.filter (fun bt => decide (bt ∉ client_side_types))).filterMap
            BET_TYPE_TO_API_MARKET) seen).filter (fun m => is_market_valid_for_sport m sp) := by
  induction bts with
  | nil => intro seen; rfl
  | cons bt rest ih =>
    intro seen
    by_cases hc : bt ∈ client_side_types
    · rw [List.filter_cons_of_neg (by simp [hc])]
      simp only [marketsLoop, if_pos hc]
      exact ih seen
    · rw [List.filter_cons_of_pos (by simp [hc])]
      simp only [marketsLoop, if_neg hc]
      cases hbt : BET_TYPE_TO_API_MARKET bt with
      | none => simp only [List.filterMap_cons, hbt]; exact ih seen
      | some m =>
        simp only [List.filterMap_cons, hbt, dedupFirstSeenAux]
        by_cases hseen : m ∈ seen
        · rw [if_pos hseen]
          by_cases hv : is_market_valid_for_sport m sp
          · have hmem : m ∈ seen.filter (fun x => is_market_valid_for_sport x sp) :=
              List.mem_filter.mpr ⟨hseen, by simp [hv]⟩
            rw [if_pos hmem]
            exact ih seen
          · have hmem : m ∉ seen.filter (fun x => is_market_valid_for_sport x sp) := by
              intro h
              exact hv (by simpa using (List.mem_filter.mp h).2)
            rw [if_neg hmem, if_neg (by simpa using hv)]
            exact ih seen
        · rw [if_neg hseen]
          have hmem : m ∉ seen.filter (fun x => is_market_valid_for_sport x sp) := by
            intro h
            exact hseen (List.mem_filter.mp h).1
          rw [if_neg hmem]
          by_cases hv : is_market_valid_for_sport m sp
          · rw [if_pos hv]
            have hstep : seen.filter (fun x => is_market_valid_for_sport x sp) ++ [m]
                = (seen ++ [m]).filter (fun x => is_market_valid_for_sport x sp) := by
              rw [List.filter_append]
              simp [hv]
            rw [hstep]
            exact ih (seen ++ [m])
          · rw [if_neg hv]
            have hstep : seen.filter (fun x => is_market_valid_for_sport x sp)
                = (seen ++ [m]).filter (fun x => is_market_valid_for_sport x sp) := by
              rw [List.filter_append]
              simp [hv]
            rw [hstep]
            exact ih (seen ++ [m])

/-! ## Lemmas about the double-rounding model -/

lemma int_log2_eq {q : ℚ} {e : ℤ} (h0 : 0 < q) (h1 : (2 : ℚ) ^ e ≤ q)
    (h2 : q < (2 : ℚ) ^ (e + 1)) : Int.log 2 q = e := by
  have hb : 1 < (2 : ℕ) := by norm_num
  have hcast : ((2 : ℕ) : ℚ) = (2 : ℚ) := by norm_num
  have hle : e ≤ Int.log 2 q := by
    rw [← Int.zpow_le_iff_le_log hb h0, hcast]
    exact h1
  have hlt : Int.log 2 q < e + 1 := by
    rw [← Int.lt_zpow_iff_log_lt hb h0, hcast]
    exact h2
  omega

lemma roundHalfEven_ge_floor (m : ℚ) : ⌊m⌋ ≤ roundHalfEven m := by
  unfold roundHalfEven
  split_ifs <;> omega

lemma roundDouble_nonneg {q : ℚ} (h : 0 ≤ q) : 0 ≤ roundDouble q := by
  unfold roundDouble
  rcases eq_or_lt_of_le h with h0 | h0
  · rw [if_pos h0.symm]
  · rw [if_neg (by linarith), if_neg (by linarith)]
    unfold roundDoublePos
    have hsc : (0 : ℚ) < (2 : ℚ) ^ (Int.log 2 q - 52) := by positivity
    have hm : (0 : ℚ) < q / (2 : ℚ) ^ (Int.log 2 q - 52) := by positivity
    have hfl : (0 : ℤ) ≤ ⌊q / (2 : ℚ) ^ (Int.log 2 q - 52)⌋ := by
      positivity
    have hrn : (0 : ℤ) ≤ roundHalfEven (q / (2 : ℚ) ^ (Int.log 2 q - 52)) :=
      le_trans hfl (roundHalfEven_ge_floor _)
    have : (0 : ℚ) ≤ ((roundHalfEven (q / (2 : ℚ) ^ (Int.log 2 q - 52)) : ℚ)) := by
      exact_mod_cast hrn
    positivity

lemma one_le_roundDouble {q : ℚ} (h : 1 ≤ q) : 1 ≤ roundDouble q := by
  have h0 : 0 < q := by linarith
  have hb : 1 < (2 : ℕ) := by norm_num
  have hcast : ((2 : ℕ) : ℚ) = (2 : ℚ) := by norm_num
  have he0 : 0 ≤ Int.log 2 q := by
    have h1 : ((2 : ℕ) : ℚ) ^ (0 : ℤ) ≤ q := by simpa using h
    exact (Int.zpow_le_iff_le_log hb h0).mp h1
  have hqe : (2 : ℚ) ^ (Int.log 2 q) ≤ q := by
    have := Int.zpow_log_le_self hb h0
    rwa [hcast] at this
  have hsc : (0 : ℚ) < (2 : ℚ) ^ (Int.log 2 q - 52) := by positivity
  have hexp : (52 : ℤ) + (Int.log 2 q - 52) = Int.log 2 q := by omega
  have hm : (2 : ℚ) ^ (52 : ℤ) ≤ q / (2 : ℚ) ^ (Int.log 2 q - 52) := by
    rw [le_div_iff₀ hsc, ← zpow_add₀ (by norm_num : (2 : ℚ) ≠ 0), hexp]
    exact hqe
  have hfl : (2 ^ 52 : ℤ) ≤ ⌊q / (2 : ℚ) ^ (Int.log 2 q - 52)⌋ := by
    apply Int.le_floor.mpr
    calc ((2 ^ 52 : ℤ) : ℚ) = (2 : ℚ) ^ (52 : ℤ) := by norm_num
    _ ≤ _ := hm
  have hrn : (2 ^ 52 : ℤ) ≤ roundHalfEven (q / (2 : ℚ) ^ (Int.log 2 q - 52)) :=
    le_trans hfl (roundHalfEven_ge_floor _)
  have hstep : (2 : ℚ) ^ (52 : ℤ) * (2 : ℚ) ^ (Int.log 2 q - 52)
      ≤ ((roundHalfEven (q / (2 : ℚ) ^ (Int.log 2 q - 52)) : ℤ) : ℚ)
          * (2 : ℚ) ^ (Int.log 2 q - 52) := by
    apply mul_le_mul_of_nonneg_right _ (le_of_lt hsc)
    calc (2 : ℚ) ^ (52 : ℤ) = ((2 ^ 52 : ℤ) : ℚ) := by norm_num
    _ ≤ _ := by exact_mod_cast hrn
  have hpow : (2 : ℚ) ^ (52 : ℤ) * (2 : ℚ) ^ (Int.log 2 q - 52) = (2 : ℚ) ^ (Int.log 2 q) := by
    rw [← zpow_add₀ (by norm_num : (2 : ℚ) ≠ 0), hexp]
  have hge1 : (1 : ℚ) ≤ (2 : ℚ) ^ (Int.log 2 q) := by
    obtain ⟨n, hn⟩ : ∃ n : ℕ, Int.log 2 q = (n : ℤ) := ⟨(Int.log 2 q).toNat, (Int.toNat_of_nonneg he0).symm⟩
    rw [hn, zpow_natCast]
    exact one_le_pow₀ (by norm_num)
  unfold roundDouble
  rw [if_neg (by linarith), if_neg (by linarith)]
  unfold roundDoublePos
  linarith [hstep, hpow ▸ hstep]

lemma roundDouble_eval_down {q : ℚ} {e k : ℤ} (h0 : 0 < q)
    (h1 : (2 : ℚ) ^ e ≤ q) (h2 : q < (2 : ℚ) ^ (e + 1))
    (hk : ⌊q / (2 : ℚ) ^ (e - 52)⌋ = k)
    (hfrac : q / (2 : ℚ) ^ (e - 52) - (k : ℚ) < 1/2) :
    roundDouble q = (k : ℚ) * (2 : ℚ) ^ (e - 52) := by
  have hlog : Int.log 2 q = e := int_log2_eq h0 h1 h2
  unfold roundDouble
  rw [if_neg (by linarith), if_neg (by linarith)]
  unfold roundDoublePos roundHalfEven
  rw [hlog, hk, if_pos hfrac]

lemma roundDouble_two_zpow (z : ℤ) : roundDouble ((2 : ℚ) ^ z) = (2 : ℚ) ^ z := by
  have h0 : (0 : ℚ) < (2 : ℚ) ^ z := by positivity
  have h2 : (2 : ℚ) ^ z < (2 : ℚ) ^ (z + 1) := by
    rw [zpow_add₀ (by norm_num : (2 : ℚ) ≠ 0), zpow_one]
    linarith
  have hquot : (2 : ℚ) ^ z / (2 : ℚ) ^ (z - 52) = (2 : ℚ) ^ (52 : ℤ) := by
    rw [div_eq_iff (by positivity), ← zpow_add₀ (by norm_num : (2 : ℚ) ≠ 0)]
    congr 1
    omega
  have hk : ⌊(2 : ℚ) ^ z / (2 : ℚ) ^ (z - 52)⌋ = (2 ^ 52 : ℤ) := by
    rw [hquot, show ((2 : ℚ) ^ (52 : ℤ)) = ((2 ^ 52 : ℤ) : ℚ) by norm_num]
    exact Int.floor_intCast _
  have hfrac : (2 : ℚ) ^ z / (2 : ℚ) ^ (z - 52) - ((2 ^ 52 : ℤ) : ℚ) < 1/2 := by
    rw [hquot]
    norm_num
  rw [roundDouble_eval_down h0 (le_refl _) h2 hk hfrac,
    show (((2 ^ 52 : ℤ)) : ℚ) = (2 : ℚ) ^ (52 : ℤ) by norm_num,
    ← zpow_add₀ (by norm_num : (2 : ℚ) ≠ 0)]
  congr 1
  omega

lemma roundDouble_one : roundDouble (1 : ℚ) = 1 := by
  have := roundDouble_two_zpow 0
  simpa using this

lemma roundDouble_two : roundDouble (2 : ℚ) = 2 := by
  have := roundDouble_two_zpow 1
  simpa using this

lemma roundDouble_zero : roundDouble (0 : ℚ) = 0 := by
  simp [roundDouble]

lemma roundDouble_1e16 :
    roundDouble ((1 : ℚ)/10^16) = 8112963841460668 / 2^106 := by
  have h0 : (0 : ℚ) < 1/10^16 := by norm_num
  have h1 : (2 : ℚ) ^ (-54 : ℤ) ≤ 1/10^16 := by norm_num
  have h2 : (1 : ℚ)/10^16 < (2 : ℚ) ^ ((-54 : ℤ) + 1) := by norm_num
  have hquot : (1 : ℚ)/10^16 / (2 : ℚ) ^ ((-54 : ℤ) - 52) = 2^106/10^16 := by
    norm_num
  have hk : ⌊(1 : ℚ)/10^16 / (2 : ℚ) ^ ((-54 : ℤ) - 52)⌋ = (8112963841460668 : ℤ) := by
    rw [hquot]
    rw [Int.floor_eq_iff]
    norm_num
  have hfrac : (1 : ℚ)/10^16 / (2 : ℚ) ^ ((-54 : ℤ) - 52) - ((8112963841460668 : ℤ) : ℚ)
      < 1/2 := by
    rw [hquot]
    norm_num
  rw [roundDouble_eval_down h0 h1 h2 hk hfrac]
  norm_num

lemma roundDouble_one_plus_tiny :
    roundDouble (1 + 8112963841460668 / 2^106 : ℚ) = 1 := by
  have h0 : (0 : ℚ) < 1 + 8112963841460668 / 2^106 := by norm_num
  have h1 : (2 : ℚ) ^ (0 : ℤ) ≤ 1 + 8112963841460668 / 2^106 := by norm_num
  have h2 : (1 + 8112963841460668 / 2^106 : ℚ) < (2 : ℚ) ^ ((0 : ℤ) + 1) := by norm_num
  have hk : ⌊(1 + 8112963841460668 / 2^106 : ℚ) / (2 : ℚ) ^ ((0 : ℤ) - 52)⌋
      = (4503599627370496 : ℤ) := by
    rw [Int.floor_eq_iff]
    constructor <;> norm_num
  have hfrac : (1 + 8112963841460668 / 2^106 : ℚ) / (2 : ℚ) ^ ((0 : ℤ) - 52)
      - ((4503599627370496 : ℤ) : ℚ) < 1/2 := by
    norm_num
  rw [roundDouble_eval_down h0 h1 h2 hk hfrac]
  norm_num

lemma floatLegDecimal_neg1e18 :
    floatLegDecimal (-1000000000000000000) = some 1 := by
  unfold floatLegDecimal
  rw [if_neg (by norm_num), if_neg (by norm_num)]
  rw [show ((-1000000000000000000 : ℤ)).natAbs = 1000000000000000000 by rfl]
  rw [show (100 : ℚ) / ((1000000000000000000 : ℕ) : ℚ) = 1/10^16 by push_cast; norm_num]
  rw [roundDouble_1e16]
  unfold fadd
  rw [roundDouble_one_plus_tiny]

lemma floatLegDecimal_pos100 : floatLegDecimal 100 = some 2 := by
  unfold floatLegDecimal
  rw [if_pos (by norm_num)]
  rw [show ((100 : ℤ) : ℚ) / 100 = 1 by push_cast; norm_num]
  rw [roundDouble_one]
  unfold fadd
  rw [show (1 : ℚ) + 1 = 2 by norm_num, roundDouble_two]

lemma floatParlayDecimals_neg1e18 :
    floatParlayDecimals ["-1000000000000000000"] = [1] := by
  have hp : parseLeg "-1000000000000000000" = some (-1000000000000000000) := by decide
  simp only [floatParlayDecimals, List.filterMap_cons, List.filterMap_nil, hp,
    Option.bind_some, Option.some_bind, floatLegDecimal_neg1e18]

lemma floatParlayDecimals_pos100 : floatParlayDecimals ["+100"] = [2] := by
  have hp : parseLeg "+100" = some 100 := by decide
  simp only [floatParlayDecimals, List.filterMap_cons, List.filterMap_nil, hp,
    Option.bind_some, Option.some_bind, floatLegDecimal_pos100]

lemma calculate_parlay_odds_float_crash :
    calculate_parlay_odds_float ["-1000000000000000000"] = none := by
  unfold calculate_parlay_odds_float
  rw [if_neg (by simp), floatParlayDecimals_neg1e18]
  rw [if_neg (by simp)]
  have hfold : List.foldl fmul 1 [(1 : ℚ)] = 1 := by
    simp only [List.foldl_cons, List.foldl_nil]
    unfold fmul
    rw [show (1 : ℚ) * 1 = 1 by norm_num, roundDouble_one]
  rw [hfold]
  rw [if_neg (by norm_num : ¬ (2 : ℚ) ≤ 1)]
  have hsub : fsub (1 : ℚ) 1 = 0 := by
    unfold fsub
    rw [show (1 : ℚ) - 1 = 0 by norm_num, roundDouble_zero]
  rw [hsub]
  simp [fdiv?]

lemma one_le_of_floatLegDecimal {v : Int} {x : ℚ} (h : floatLegDecimal v = some x) :
    1 ≤ x := by
  unfold floatLegDecimal at h
  split_ifs at h with hpos hzero
  · cases h
    apply one_le_roundDouble
    have hv : (0 : ℚ) ≤ (v : ℚ) / 100 := by
      have : (0 : ℚ) ≤ (v : ℚ) := by exact_mod_cast le_of_lt hpos
      positivity
    have := roundDouble_nonneg hv
    linarith
  · cases h
    apply one_le_roundDouble
    have hv : (0 : ℚ) ≤ 100 / ((v.natAbs : ℚ)) := by positivity
    have := roundDouble_nonneg hv
    linarith

lemma one_le_mem_floatParlayDecimals (selections : List String) :
    ∀ x ∈ floatParlayDecimals selections, 1 ≤ x := by
  intro x hx
  unfold floatParlayDecimals at hx
  rcases List.mem_filterMap.mp hx with ⟨s, _, hs⟩
  rcases Option.bind_eq_some.mp hs with ⟨v, _, hv⟩
  exact one_le_of_floatLegDecimal hv

lemma one_le_foldl_fmul (l : List ℚ) :
    ∀ a : ℚ, 1 ≤ a → (∀ x ∈ l, 1 ≤ x) → 1 ≤ l.foldl fmul a := by
  induction l with
  | nil => intro a ha _; simpa using ha
  | cons y t ih =>
    intro a ha hall
    have hy : 1 ≤ y := hall y (List.mem_cons_self y t)
    have hay : 1 ≤ fmul a y := by
      unfold fmul
      exact one_le_roundDouble (by nlinarith)
    exact ih (fmul a y) hay (fun x hx => hall x (List.mem_cons_of_mem y hx))

/-! ## Concrete parlay evaluations -/

lemma parlayDecimals_neg150_pair : parlayDecimals ["-150", "-150"] = [5/3, 5/3] := by
  have hp : parseLeg "-150" = some (-150) := by decide
  have hn : ((-150 : Int)).natAbs = 150 := by decide
  have hA : (parseLeg "-150").bind americanToDecimal = some (5/3 : ℚ) := by
    rw [hp]
    simp only [Option.bind_some, americanToDecimal]
    norm_num [hn]
  simp only [parlayDecimals, List.filterMap_cons, List.filterMap_nil, hA]

lemma specParlayDecimals_neg150_pair :
    specParlayDecimals ["-150", "-150"] = [5/3, 5/3] := by
  have hp : parseLeg "-150" = some (-150) := by decide
  have hn : ((-150 : Int)).natAbs = 150 := by decide
  have hS : (parseLeg "-150").map specLegDecimal = some (5/3 : ℚ) := by
    rw [hp]
    simp only [Option.map_some', specLegDecimal]
    norm_num [hn]
  simp only [specParlayDecimals, List.filterMap_cons, List.filterMap_nil, hS]

lemma parlay_neg150_pair_eval : calculate_parlay_odds ["-150", "-150"] = "+" ++ toString (177 : ℤ) := by
  have hfold : (parlayDecimals ["-150", "-150"]).foldl (fun a b => a * b) 1 = 25/9 := by
    rw [parlayDecimals_neg150_pair]
    simp only [List.foldl_cons, List.foldl_nil]
    norm_num
  exact calculate_parlay_odds_eval_hi (by simp)
    (by rw [parlayDecimals_neg150_pair]; simp) hfold (by norm_num)
    (truncQ_eq_of (by norm_num) (by norm_num) (by norm_num))

lemma spec_round_neg150_pair_eval :
    combineParlaySpecRound ["-150", "-150"] = "+" ++ toString (178 : ℤ) := by
  have hfold : (specParlayDecimals ["-150", "-150"]).foldl (fun a b => a * b) 1 = 25/9 := by
    rw [specParlayDecimals_neg150_pair]
    simp only [List.foldl_cons, List.foldl_nil]
    norm_num
  exact combineParlaySpecRound_eval_hi
    (by rw [specParlayDecimals_neg150_pair]; simp) hfold (by norm_num)
    (round_eq_of (by norm_num) (by norm_num))

lemma parlay_example_275 : calculate_parlay_odds ["+150", "-200"] = "+275" := by
  have hp1 : parseLeg "+150" = some 150 := by decide
  have hp2 : parseLeg "-200" = some (-200) := by decide
  have hn : ((-200 : Int)).natAbs = 200 := by decide
  have hA1 : (parseLeg "+150").bind americanToDecimal = some (5/2 : ℚ) := by
    rw [hp1]
    simp only [Option.bind_some, americanToDecimal]
    norm_num
  have hA2 : (parseLeg "-200").bind americanToDecimal = some (3/2 : ℚ) := by
    rw [hp2]
    simp only [Option.bind_some, americanToDecimal]
    norm_num [hn]
  have hd : parlayDecimals ["+150", "-200"] = [5/2, 3/2] := by
    simp only [parlayDecimals, List.filterMap_cons, List.filterMap_nil, hA1, hA2]
  have hfold : (parlayDecimals ["+150", "-200"]).foldl (fun a b => a * b) 1 = 15/4 := by
    rw [hd]
    simp only [List.foldl_cons, List.foldl_nil]
    norm_num
  have h := calculate_parlay_odds_eval_hi (l := ["+150", "-200"]) (by simp)
    (by rw [hd]; simp) hfold (by norm_num)
    (truncQ_eq_of (q := ((15 : ℚ)/4 - 1) * 100) (n := 275) (by norm_num) (by norm_num) (by norm_num))
  rw [h]
  decide

/-! ## Claim theorems: parlay combination and implied probability -/

/-- C4 counterexample: the claim converts the combined decimal odds back to
American format with `round`, but the code uses Python `int()` truncation
toward zero.  On `["-150", "-150"]` the combined decimal odds are `25/9`,
`(25/9 - 1) * 100 = 1600/9 ≈ 177.78`, so the code yields `"+177"` while the
claimed `round` formula yields `"+178"`. -/
theorem parlay_round_counterexample :
    calculate_parlay_odds ["-150", "-150"] = "+177" ∧
    combineParlaySpecRound ["-150", "-150"] = "+178" ∧
    calculate_parlay_odds ["-150", "-150"] ≠ combineParlaySpecRound ["-150", "-150"] := by
  have h1 := parlay_neg150_pair_eval
  have h2 := spec_round_neg150_pair_eval
  refine ⟨?_, ?_, ?_⟩
  · rw [h1]; decide
  · rw [h2]; decide
  · rw [h1, h2]; decide

/-- C4 (amended): for every list of American-odds strings, each parseable
leg with nonzero value is converted to decimal odds (`1 + v/100` for
positive `v`, `1 + 100/|v|` for negative `v`; a value of 0 raises a caught
`ZeroDivisionError` and the leg is skipped, like an unparseable leg), all
retained decimal odds are multiplied into `d`, and `d` is converted back to
American format as `+int((d-1)*100)` when `d ≥ 2` and `int(-100/(d-1))`
otherwise, where `int` truncates toward zero; empty or all-skipped input
yields `"+100"`; in particular `["+150", "-200"]` combines to `"+275"`. -/
theorem parlay_combination_amended (selections : List String) :
    calculate_parlay_odds selections = combineParlayAmended selections ∧
    calculate_parlay_odds ["+150", "-200"] = "+275" ∧
    calculate_parlay_odds [] = "+100" := by
  refine ⟨?_, parlay_example_275, by decide⟩
  by_cases hsel : selections = []
  · subst hsel; decide
  · unfold calculate_parlay_odds combineParlayAmended
    rw [parlayDecimals_eq_amended, if_neg hsel]

lemma find?_cacheErase (c : List (String × APIResponse × Nat)) (k : String) :
    (cacheErase c k).find? (fun e => e.1 == k) = none := by
  unfold cacheErase
  induction c with
  | nil => rfl
  | cons e rest ih =>
    by_cases he : e.1 == k
    · rw [List.filter_cons_of_neg (by simp [he])]
      exact ih
    · rw [List.filter_cons_of_pos (by simp [he])]
      have hb : (e.1 == k) = false := by simpa using he
      simp only [List.find?_cons, hb, cond_false]
      exact ih

lemma cacheLookup_erase (c : List (String × APIResponse × Nat)) (k : String) :
    cacheLookup (cacheErase c k) k = none := by
  unfold cacheLookup
  rw [find?_cacheErase]
  rfl

lemma cacheLookup_insert (c : List (String × APIResponse × Nat)) (k : String)
    (v : APIResponse) (t : Nat) :
    cacheLookup (cacheInsert c k v t) k = some (v, t) := by
  unfold cacheInsert cacheLookup
  rw [List.find?_append, find?_cacheErase]
  simp [List.find?]

lemma mem_cacheInsert {e : String × APIResponse × Nat}
    {c : List (String × APIResponse × Nat)} {k : String} {v : APIResponse} {t : Nat}
    (h : e ∈ cacheInsert c k v t) : e ∈ c ∨ e = (k, v, t) := by
  unfold cacheInsert cacheErase at h
  rcases List.mem_append.mp h with h1 | h1
  · exact Or.inl (List.mem_filter.mp h1).1
  · right
    simpa using h1

/-- C1: cache contract of `get_odds` for a supported sport: (a) a cached
entry for the exact (sport-key, regions, markets, odds-format) key is
served, with no physical call, exactly while `now - capture time` is below
the 15-minute TTL; (b) an expired entry is evicted on that lookup and the
key afterwards holds the fresh response if it succeeded and nothing
otherwise; (c) every cache entry after the call was already present or is
the just-fetched successful response, so failures are never stored;
(d) two identical requests within the TTL window perform exactly one
physical call in total and the second returns the identical cached
response. -/
theorem get_odds_cache_contract
    (g : Gateway) (now : Nat) (fetch : APIResponse) (sport : SportType)
    (sk regions markets fmt : String) (hsk : SPORT_KEYS sport = some sk) :
    (∀ r t, cacheLookup g.cache (cacheKeyOf sk regions markets fmt) = some (r, t) →
      now - t < CACHE_DURATION_SECONDS →
      get_odds g now fetch sport regions markets fmt = (r, g, 0)) ∧
    (∀ r t, cacheLookup g.cache (cacheKeyOf sk regions markets fmt) = some (r, t) →
      ¬ (now - t < CACHE_DURATION_SECONDS) →
      (get_odds g now fetch sport regions markets fmt).1 = fetch ∧
      (get_odds g now fetch sport regions markets fmt).2.2 = 1 ∧
      cacheLookup (get_odds g now fetch sport regions markets fmt).2.1.cache
          (cacheKeyOf sk regions markets fmt)
        = if fetch.success = true then some (fetch, now) else none) ∧
    (∀ e ∈ (get_odds g now fetch sport regions markets fmt).2.1.cache,
      e ∈ g.cache ∨
        (e = (cacheKeyOf sk regions markets fmt, fetch, now) ∧ fetch.success = true)) ∧
    (cacheLookup g.cache (cacheKeyOf sk regions markets fmt) = none →
      fetch.success = true →
      ∀ now2 fetch2, now2 - now < CACHE_DURATION_SECONDS →
        get_odds g now fetch sport regions markets fmt
          = (fetch, ⟨cacheInsert g.cache (cacheKeyOf sk regions markets fmt) fetch now⟩, 1) ∧
        get_odds ⟨cacheInsert g.cache (cacheKeyOf sk regions markets fmt) fetch now⟩ now2
            fetch2 sport regions markets fmt
          = (fetch, ⟨cacheInsert g.cache (cacheKeyOf sk regions markets fmt) fetch now⟩, 0)) := by
  refine ⟨?_, ?_, ?_, ?_⟩
  · intro r t hl hfresh
    simp [get_odds, hsk, hl, hfresh]
  · intro r t hl hexp
    by_cases hs : fetch.success
    · simp [get_odds, hsk, hl, hexp, hs, cacheLookup_insert]
    · simp [get_odds, hsk, hl, hexp, hs, cacheLookup_erase]
  · intro e he
    rcases hl : cacheLookup g.cache (cacheKeyOf sk regions markets fmt) with _ | ⟨r, t⟩
    · by_cases hs : fetch.success
      · simp only [get_odds, hsk, hl, hs, if_true] at he
        rcases mem_cacheInsert he with h1 | h1
        · exact Or.inl h1
        · exact Or.inr ⟨h1, hs⟩
      · simp only [get_odds, hsk, hl, hs] at he
        simp at he
        exact Or.inl (by simpa [hs] using he)
    · by_cases hfresh : now - t < CACHE_DURATION_SECONDS
      · simp only [get_odds, hsk, hl, hfresh, if_true] at he
        exact Or.inl he
      · by_cases hs : fetch.success
        · simp only [get_odds, hsk, hl, hfresh, hs, if_true, if_false] at he
          rcases mem_cacheInsert he with h1 | h1
          · exact Or.inl h1
          · exact Or.inr ⟨h1, hs⟩
        · have hs2 : fetch.success = false := by simpa using hs
          simp only [get_odds, hsk, hl, hfresh, hs2, Bool.false_eq_true, if_false] at he
          exact Or.inl (List.mem_filter.mp he).1
  · intro hnone hsucc now2 fetch2 hts
    constructor
    · simp [get_odds, hsk, hnone, hsucc]
    · simp [get_odds, hsk, cacheLookup_insert, hts]

/-- C1 witness: an empty-cache fetch for NFL at time 0 stores the
successful response and performs one call; the same request at time 60
performs no call and returns the identical response; at time 1000 the
entry is expired, a refetch happens and the failed refetch leaves the key
empty. -/
theorem get_odds_cache_contract_witness :
    (get_odds ⟨[]⟩ 0 (successResponse "odds") .NFL "us" "h2h" "american"
      = (successResponse "odds",
         ⟨cacheInsert [] (cacheKeyOf "americanfootball_nfl" "us" "h2h" "american")
            (successResponse "odds") 0⟩, 1) ∧
    get_odds ⟨cacheInsert [] (cacheKeyOf "americanfootball_nfl" "us" "h2h" "american")
          (successResponse "odds") 0⟩ 60 (successResponse "other") .NFL "us" "h2h" "american"
      = (successResponse "odds",
         ⟨cacheInsert [] (cacheKeyOf "americanfootball_nfl" "us" "h2h" "american")
            (successResponse "odds") 0⟩, 0)) ∧
    cacheLookup (get_odds ⟨cacheInsert [] (cacheKeyOf "americanfootball_nfl" "us" "h2h" "american")
          (successResponse "odds") 0⟩ 1000 (failedResponse 3) .NFL "us" "h2h" "american").2.1.cache
        (cacheKeyOf "americanfootball_nfl" "us" "h2h" "american")
      = none :=
  ⟨(get_odds_cache_contract ⟨[]⟩ 0 (successResponse "odds") .NFL
      "americanfootball_nfl" "us" "h2h" "american" rfl).2.2.2
      rfl rfl 60 (successResponse "other") (by decide),
   by
    have h := (get_odds_cache_contract
      ⟨cacheInsert [] (cacheKeyOf "americanfootball_nfl" "us" "h2h" "american")
          (successResponse "odds") 0⟩ 1000 (failedResponse 3) .NFL
      "americanfootball_nfl" "us" "h2h" "american" rfl).2.1
      (successResponse "odds") 0 (by decide) (by decide)
    rw [h.2.2]
    decide⟩

lemma attemptLoop_other_http (net : Nat → CallOutcome) (mr : Nat)
    (h : ∀ i, ∃ s, net i = .httpError s ∧ s ≠ 429 ∧ s ≠ 401) :
    ∀ (remaining attempt calls : Nat) (sleeps : List Nat),
      attemptLoop net mr remaining attempt calls sleeps
        = ⟨failedResponse mr, calls + remaining, sleeps⟩ := by
  intro remaining
  induction remaining with
  | zero => intro attempt calls sleeps; simp [attemptLoop]
  | succ k ih =>
    intro attempt calls sleeps
    obtain ⟨s, hs, h429, h401⟩ := h attempt
    simp only [attemptLoop, hs]
    rw [if_neg h429, if_neg h401, ih (attempt + 1) (calls + 1) sleeps]
    simp only [RequestResult.mk.injEq, and_true, true_and]
    omega

/-- C2: with the default `max_retries = 3`, two 429 responses followed by
a success make exactly 3 physical calls, sleep the doubling backoff delays
1 and 2 (the first two entries of the 1x, 2x, 4x schedule) between them,
and return the success; a 401 on the first call returns immediately after
exactly 1 physical call with the distinct "Invalid API key" fatal message
(for any positive attempt ceiling). -/
theorem retry_backoff_behaviour (net : Nat → CallOutcome) (d : String) (m : Nat) :
    (net 0 = .httpError 429 → net 1 = .httpError 429 → net 2 = .success d →
      make_request true net 3 = ⟨successResponse d, 3, [1, 2]⟩) ∧
    (1 ≤ m → net 0 = .httpError 401 →
      make_request true net m = ⟨invalidKeyResponse, 1, []⟩) ∧
    invalidKeyResponse.error = some "Invalid API key" ∧
    invalidKeyResponse.success = false := by
  refine ⟨?_, ?_, rfl, rfl⟩
  · intro h0 h1 h2
    simp [make_request, attemptLoop, h0, h1, h2]
  · intro hm h0
    cases m with
    | zero => omega
    | succ k =>
      simp [make_request, attemptLoop, h0]

/-- C2 witness: the 429-429-success schedule and a 401 evaluated at
concrete network traces with `max_retries = 3` and `1`. -/
theorem retry_backoff_behaviour_witness :
    make_request true (fun i => if i < 2 then .httpError 429 else .success "payload") 3
      = ⟨successResponse "payload", 3, [1, 2]⟩ ∧
    make_request true (fun _ => .httpError 401) 1 = ⟨invalidKeyResponse, 1, []⟩ :=
  ⟨(retry_backoff_behaviour
      (fun i => if i < 2 then .httpError 429 else .success "payload") "payload" 3).1
      (by decide) (by decide) (by decide),
   (retry_backoff_behaviour (fun _ => .httpError 401) "x" 1).2.1 (by decide) rfl⟩

/-- C3 counterexample: an HTTP error status that is neither 429 nor 401
(here 500 on every attempt, `max_retries = 3`) does NOT stop the gateway
after one physical call — the `except HTTPError` branch only logs and the
loop continues, so all 3 attempts are consumed before the generic
"failed after N attempts" result. -/
theorem nonretryable_counterexample :
    (make_request true (fun _ => .httpError 500) 3).calls = 3 ∧
    (make_request true (fun _ => .httpError 500) 3).calls ≠ 1 ∧
    make_request true (fun _ => .httpError 500) 3
      = ⟨failedResponse 3, 3, []⟩ := by
  refine ⟨by decide, by decide, by decide⟩

/-- C3 (amended): an error that is neither an HTTP error response nor a
timeout (the bare `except Exception` branch) stops the loop immediately
after that single physical call and yields the generic failure; an HTTP
error status other than 429 and 401 is instead logged and retried without
sleeping until the attempt ceiling is exhausted, also yielding the generic
"failed after N attempts" failure. -/
theorem nonretryable_amended (net : Nat → CallOutcome) (m : Nat) :
    (1 ≤ m → net 0 = .otherError →
      make_request true net m = ⟨failedResponse m, 1, []⟩) ∧
    ((∀ i, ∃ s, net i = .httpError s ∧ s ≠ 429 ∧ s ≠ 401) →
      make_request true net m = ⟨failedResponse m, m, []⟩) := by
  constructor
  · intro hm h0
    cases m with
    | zero => omega
    | succ k => simp [make_request, attemptLoop, h0]
  · intro h
    simp [make_request, attemptLoop_other_http net m h m 0 0 []]

/-- C3 witness: a non-HTTP, non-timeout failure stops after 1 call; a
503-every-time trace consumes both attempts of a ceiling of 2. -/
theorem nonretryable_amended_witness :
    make_request true (fun _ => .otherError) 3 = ⟨failedResponse 3, 1, []⟩ ∧
    make_request true (fun _ => .httpError 503) 2 = ⟨failedResponse 2, 2, []⟩ :=
  ⟨(nonretryable_amended (fun _ => .otherError) 3).1 (by decide) rfl,
   (nonretryable_amended (fun _ => .httpError 503) 2).2
     (fun i => ⟨503, rfl, by decide, by decide⟩)⟩

/-- C6: market-validity classification, in the source's evaluation order.
Soccer-only markets are valid exactly for soccer-family sports; after the
basic/alternate/soccer/quarter rules fail, a half-segment market is valid
for all sports except soccer-family; then a period-segment market only for
hockey; then an inning-segment market only for baseball; each player-prop
family only for its named sport family; a market matching no rule is valid
by default (fail-open); in particular `h2h_3_way` is invalid for NFL and
valid for SOCCER. -/
theorem market_validity_classification :
    (∀ m ∈ soccer_markets, ∀ sp : SportType,
      is_market_valid_for_sport m sp = decide (sp ∈ soccer_sports)) ∧
    (∀ m : String, ∀ sp : SportType, m ∉ basic_markets → m ∉ alternate_markets →
      m ∉ soccer_markets → quarterPrefix m = false → halfPrefix m = true →
      is_market_valid_for_sport m sp = !decide (sp ∈ soccer_sports)) ∧
    (∀ m : String, ∀ sp : SportType, m ∉ basic_markets → m ∉ alternate_markets →
      m ∉ soccer_markets → quarterPrefix m = false → halfPrefix m = false →
      periodCond m = true →
      is_market_valid_for_sport m sp = decide (sp ∈ hockey_sports)) ∧
    (∀ m : String, ∀ sp : SportType, m ∉ basic_markets → m ∉ alternate_markets →
      m ∉ soccer_markets → quarterPrefix m = false → halfPrefix m = false →
      periodCond m = false → strContains m "innings" = true →
      is_market_valid_for_sport m sp = decide (sp ∈ baseball_sports)) ∧
    (∀ m ∈ football_props, ∀ sp : SportType,
      is_market_valid_for_sport m sp = decide (sp ∈ football_sports)) ∧
    (∀ m ∈ basketball_props, ∀ sp : SportType,
      is_market_valid_for_sport m sp = decide (sp ∈ basketball_sports)) ∧
    (∀ m ∈ baseball_props, ∀ sp : SportType,
      is_market_valid_for_sport m sp = decide (sp ∈ baseball_sports)) ∧
    (∀ m ∈ hockey_props, ∀ sp : SportType,
      is_market_valid_for_sport m sp = decide (sp ∈ hockey_sports)) ∧
    (∀ m : String, ∀ sp : SportType, m ∉ basic_markets → m ∉ alternate_markets →
      m ∉ soccer_markets → quarterPrefix m = false → halfPrefix m = false →
      periodCond m = false → strContains m "innings" = false → m ∉ football_props →
      m ∉ basketball_props → m ∉ baseball_props → m ∉ hockey_props →
      is_market_valid_for_sport m sp = true) ∧
    is_market_valid_for_sport "h2h_3_way" .NFL = false ∧
    is_market_valid_for_sport "h2h_3_way" .SOCCER = true := by
  refine ⟨by decide, ?_, ?_, ?_, by decide, by decide, by decide, by decide, ?_,
    by decide, by decide⟩
  · intro m sp h1 h2 h3 h4 h5
    simp [is_market_valid_for_sport, h1, h2, h3, h4, h5]
  · intro m sp h1 h2 h3 h4 h5 h6
    simp [is_market_valid_for_sport, h1, h2, h3, h4, h5, h6]
  · intro m sp h1 h2 h3 h4 h5 h6 h7
    simp [is_market_valid_for_sport, h1, h2, h3, h4, h5, h6, h7]
  · intro m sp h1 h2 h3 h4 h5 h6 h7 h8 h9 h10 h11
    simp [is_market_valid_for_sport, h1, h2, h3, h4, h5, h6, h7, h8, h9, h10, h11]

/-- C6 witness: the classification rules applied at concrete markets and
sports (`btts`/MLS, `spreads_h1`/NFL, `h2h_p2`/NHL,
`h2h_1st_5_innings`/MLB, and a fail-open market for GOLF). -/
theorem market_validity_classification_witness :
    is_market_valid_for_sport "btts" .MLS = decide (SportType.MLS ∈ soccer_sports) ∧
    is_market_valid_for_sport "spreads_h1" .NFL = !decide (SportType.NFL ∈ soccer_sports) ∧
    is_market_valid_for_sport "h2h_p2" .NHL = decide (SportType.NHL ∈ hockey_sports) ∧
    is_market_valid_for_sport "h2h_1st_5_innings" .MLB = decide (SportType.MLB ∈ baseball_sports) ∧
    is_market_valid_for_sport "brand_new_market" .GOLF = true :=
  ⟨market_validity_classification.1 "btts" (by decide) .MLS,
   market_validity_classification.2.1 "spreads_h1" .NFL (by decide) (by decide)
     (by decide) (by decide) (by decide),
   market_validity_classification.2.2.1 "h2h_p2" .NHL (by decide) (by decide)
     (by decide) (by decide) (by decide) (by decide),
   market_validity_classification.2.2.2.1 "h2h_1st_5_innings" .MLB (by decide) (by decide)
     (by decide) (by decide) (by decide) (by decide) (by decide),
   market_validity_classification.2.2.2.2.2.2.2.2.1 "brand_new_market" .GOLF
     (by decide) (by decide) (by decide) (by decide) (by decide) (by decide)
     (by decide) (by decide) (by decide) (by decide) (by decide)⟩

/-- C7: for every list of bet types and every sport,
`bet_types_to_markets` filters out the client-side-only bet types
(parlay, teaser, live, over-under), maps the rest to provider market keys,
deduplicates them in first-seen order, restricts them to keys valid for
the sport, and returns the default `"h2h,spreads,totals"` whenever the
result is empty; in particular `[PARLAY]` for NFL yields the default. -/
theorem markets_for_bet_types (bet_types : List BetType) (sp : SportType) :
    bet_types_to_markets bet_types (some sp) = specMarketsForBetTypes bet_types sp ∧
    bet_types_to_markets [.PARLAY] (some .NFL) = "h2h,spreads,totals" := by
  constructor
  · unfold bet_types_to_markets specMarketsForBetTypes dedupFirstSeen
    have h := marketsLoop_dedup sp bet_types []
    simp only [List.filter_nil] at h
    rw [h]
  · decide

/-- C10 counterexample: the claimed division safety is false of the
program's float arithmetic.  For the leg "-1000000000000000000"
(|v| = 10^18), `100 / abs(odd)` is the double nearest 10^-16, and adding 1
rounds to exactly 1.0 (the increment is below half an ulp of 1.0), so the
leg is retained with decimal odds exactly 1 — not strictly greater than 1;
the combined decimal odds are 1.0, the `d < 2` branch divides `-100` by
`0.0`, and the program raises an uncaught `ZeroDivisionError`
(`calculate_parlay_odds_float` returns `none`). -/
theorem parlay_float_collapse_counterexample :
    parseLeg "-1000000000000000000" = some (-1000000000000000000) ∧
    floatParlayDecimals ["-1000000000000000000"] = [1] ∧
    calculate_parlay_odds_float ["-1000000000000000000"] = none := by
  exact ⟨by decide, floatParlayDecimals_neg1e18, calculate_parlay_odds_float_crash⟩

/-- C10 (amended): under the source's float arithmetic, every leg retained
after parsing contributes decimal odds at least 1 — but not strictly: for
parsed magnitudes of about 9.01e17 and above, `1 + 100/abs(v)` rounds to
exactly 1.0 — and a leg parsing to 0 still raises the caught
`ZeroDivisionError` and is skipped; the combined decimal odds `d` satisfy
`d ≥ 1`, and the division by `d - 1` in the `d < 2` branch is NOT always
safe: when every retained leg rounds to 1.0 (e.g. the single leg
"-1000000000000000000"), `d = 1.0` and the program crashes with an
uncaught `ZeroDivisionError`, so the function is not total. -/
theorem parlay_division_amended (selections : List String) :
    (∀ x ∈ floatParlayDecimals selections, 1 ≤ x) ∧
    1 ≤ (floatParlayDecimals selections).foldl fmul 1 ∧
    floatLegDecimal 0 = none ∧
    calculate_parlay_odds_float ["-1000000000000000000"] = none := by
  refine ⟨one_le_mem_floatParlayDecimals selections, ?_, rfl,
    calculate_parlay_odds_float_crash⟩
  exact one_le_foldl_fmul (floatParlayDecimals selections) 1 (le_refl 1)
    (one_le_mem_floatParlayDecimals selections)

/-- C10 witness: the lower bound applied to the concrete retained leg
decimal 2 of `["+100"]`, and to its combined product. -/
theorem parlay_division_amended_witness :
    (1 : ℚ) ≤ 2 ∧ 1 ≤ (floatParlayDecimals ["+100"]).foldl fmul 1 :=
  ⟨(parlay_division_amended ["+100"]).1 2 (by rw [floatParlayDecimals_pos100]; simp),
   (parlay_division_amended ["+100"]).2.1⟩

/-- C5: for every American-odds string `s` with parsed value
`v = calculate_odds_value s` (where `"EVEN"`, `"EV"` and `"+100"` all
parse to 100), the implied probability is `round(100/(v+100)*100, 2)` when
`v ≥ 0` and `round(|v|/(|v|+100)*100, 2)` when `v < 0`. -/
theorem implied_probability_formula (s : String) :
    (0 ≤ calculate_odds_value s →
      calculate_implied_probability s
        = some (round2 (100 / (calculate_odds_value s + 100) * 100))) ∧
    (calculate_odds_value s < 0 →
      calculate_implied_probability s
        = some (round2 (|calculate_odds_value s| / (|calculate_odds_value s| + 100) * 100))) ∧
    calculate_odds_value "EVEN" = 100 ∧
    calculate_odds_value "EV" = 100 ∧
    calculate_odds_value "+100" = 100 := by
  refine ⟨?_, ?_, by decide, by decide, by decide⟩
  · intro h
    unfold calculate_implied_probability
    rw [if_pos h]
  · intro h
    unfold calculate_implied_probability
    rw [if_neg (not_le.mpr h)]

/-- C5 witness: the formula evaluated at `"+150"` (value 150 ≥ 0) and at
`"-200"` (value −200 < 0). -/
theorem implied_probability_formula_witness :
    (0 ≤ calculate_odds_value "+150") ∧
    calculate_implied_probability "+150"
      = some (round2 (100 / (calculate_odds_value "+150" + 100) * 100)) ∧
    (calculate_odds_value "-200" < 0) ∧
    calculate_implied_probability "-200"
      = some (round2 (|calculate_odds_value "-200"| / (|calculate_odds_value "-200"| + 100) * 100)) :=
  ⟨by decide, (implied_probability_formula "+150").1 (by decide), by decide,
    (implied_probability_formula "-200").2.1 (by decide)⟩


/-- C8 (code bug): adapter resolution is supposed never to fail without
extra constructor arguments, with unknown source types falling back to the
generic custom adapter; but `CustomAPIAdapter.__init__` requires
`mapping_config`, so `get_adapter` on an unknown source type (or on
"custom") with no kwargs raises `TypeError` instead of returning an
instance.  Registered no-argument adapters and the custom adapter with a
mapping do resolve. -/
theorem adapter_resolution_code_bug :
    (∃ e, get_adapter "some_unknown_source" none = Except.error e) ∧
    (∃ e, get_adapter "custom" none = Except.error e) ∧
    get_adapter "odds_api" none = Except.ok .oddsAPIAdapter ∧
    get_adapter "ESPN_API" none = Except.ok .espnAPIAdapter ∧
    get_adapter "some_unknown_source" (some [("home_team", "homeTeam")])
      = Except.ok (.customAPIAdapter [("home_team", "homeTeam")]) := by
  refine ⟨⟨_, rfl⟩, ⟨_, rfl⟩, rfl, rfl, rfl⟩

/-- C9 counterexample: the code splits the record summary on EVERY hyphen
and reads the first two parts, so "10-5-1" parses to wins 10, losses 5;
under the claimed split-on-first-hyphen reading the losses field would be
the non-numeric "5-1" and be omitted. -/
theorem team_stats_first_hyphen_counterexample :
    parseRecordSummary "10-5-1" = (some 10, some 5) ∧
    parseRecordSummaryFirstHyphen "10-5-1" = (some 10, none) ∧
    parseRecordSummary "10-5-1" ≠ parseRecordSummaryFirstHyphen "10-5-1" := by
  refine ⟨by decide, by decide, by decide⟩

/-- C9 (amended): the summary is split on every hyphen; wins come from the
first part and losses from the second; a non-numeric first part omits both
stats (the shared `try` aborts before `losses` is assigned), a non-numeric
second part omits only the losses, and fewer than two parts omit both; in
particular "10-5-1" yields wins 10 and losses 5 with nothing lost before
the first hyphen. -/
theorem team_stats_summary_amended (s : String) :
    parseRecordSummary s = parseWLAmendedSpec s ∧
    parseRecordSummary "10-5-1" = (some 10, some 5) := by
  constructor
  · unfold parseRecordSummary parseWLAmendedSpec
    generalize (splitOnChar '-' s.data).map String.mk = parts
    rcases parts with _ | ⟨p0, _ | ⟨p1, rest⟩⟩
    · simp
    · simp
    · have hlen : 2 ≤ (p0 :: p1 :: rest).length := by simp
      rw [if_pos hlen]
      simp only [List.getD_cons_zero, List.getD_cons_succ]
      cases hp0 : pyInt? p0 with
      | none => rfl
      | some w =>
        cases hp1 : pyInt? p1 with
        | none => rfl
        | some l => rfl
  · decide

end PromptBuilder
